import Mathlib

/-!
Event bot: fetcher, formatter and command handlers (`main.go`).

A shallow embedding of `main.go`.  Go strings are Lean `String`s, Go `int` and
`int64` are `Int`, a Go slice is `Slice α` (a list, or `nil`), and a Go
`(value, error)` result is a pair whose second component is `none` for a nil
error.  The collaborators that live outside the repository (`http.Post`,
`io.ReadAll`, the JSON decoder applied to the response body) are the fields of
an environment `Env`; every function that performs effects also returns the
ordered list of the effects it performed.  Two names that the source reads
without declaring them, the selector `.City` on the `string` field `Location`
(line 225) and `update` in the available handler (line 140), are parameters of
the functions that read them.
-/

set_option autoImplicit false
set_option maxRecDepth 100000
set_option linter.unusedVariables false

namespace TelegramBot

/-! ## Data model -/

/-- A Go slice: `none` is the nil slice, `some xs` a non-nil slice holding `xs`. -/
abbrev Slice (α : Type) := Option (List α)

/-- Go's `len` on a slice; the nil slice has length zero. -/
def Slice.len {α : Type} : Slice α → Nat
  | none => 0
  | some xs => xs.length

/-- The elements a `for ... range` loop visits, in order. -/
def Slice.elems {α : Type} : Slice α → List α
  | none => []
  | some xs => xs

/-- Struct `Location` (lines 31-43).  The two `float64` fields are kept as
their decimal text, no function of the program reads them. -/
structure Location where
  Country : String
  Address : String
  AddressAlt : String
  City : String
  AddressNum : String
  Name : String
  Longitude : String
  State : String
  Neighbourhood : String
  ZipCode : String
  Latitude : String
  deriving DecidableEq, Repr

/-- Struct `Images` (lines 46-50). -/
structure Images where
  Original : String
  XS : String
  LG : String
  deriving DecidableEq, Repr

/-- Struct `StartDateFormats` (lines 53-57). -/
structure StartDateFormats where
  Pt : String
  En : String
  Es : String
  deriving DecidableEq, Repr

/-- Struct `EndDateFormats` (lines 59-63). -/
structure EndDateFormats where
  Pt : String
  En : String
  Es : String
  deriving DecidableEq, Repr

/-- Struct `Event` (lines 66-73).  The source declares `Location string`, so
the struct as declared is `Event String`: the decoder, the formatter and the
handlers are stated for it.  The fetcher never inspects an event and is stated
for any type `L` of the field. -/
structure Event (L : Type) where
  Name : String
  Images : String
  Location : L
  StartDateFormats : StartDateFormats
  EndDateFormats : EndDateFormats
  URL : String
  deriving DecidableEq, Repr

/-- Struct `SymplaResponse` (lines 26-28). -/
structure SymplaResponse (L : Type) where
  Data : Slice (Event L)
  deriving DecidableEq, Repr

/-! ## Message formatter (lines 218-231) -/

/-- The text `fmt.Sprintf("- %s\n  Local: %s\n  Data: %s\n  URL: %s\n \n\n\n",
event.Name, event.Location.City, event.StartDateFormats.Pt, event.URL)` of line
225: the format string with its four `%s` verbs replaced by the four string
arguments.  The second argument applies the selector `.City` to
`event.Location`, a `string` by line 69; the source declares no such selector
on `string`, so what it yields is the parameter `City`. -/
def eventBlock (City : String → String) (event : Event String) : String :=
  "- " ++ event.Name ++ "\n  Local: " ++ City event.Location ++ "\n  Data: "
    ++ event.StartDateFormats.Pt ++ "\n  URL: " ++ event.URL ++ "\n \n\n\n"

/-- The literal appended on line 226. -/
def divider : String := "----------------------------------------\n\n\n"

/-- The literal of line 219. -/
def header : String := "#BOT DEVS OF LATIN"

/-- The literal of line 221. -/
def unavailableNotice : String :=
  "Ops... Looks Like the service is unavailable at the moment :("

/-- Function `formatEventsMessage` (lines 218-231); `City` is the selector
that line 225 reads (see `eventBlock`). -/
def formatEventsMessage (City : String → String) (events : Slice (Event String)) :
    String :=
  let message := header
  if events.isNone || events.len == 0 then
    message ++ unavailableNotice
  else
    events.elems.foldl
      (fun message event => (message ++ eventBlock City event) ++ divider)
      (message ++ "Events:")

/-! ## Request construction (lines 161-183, 210-216) -/

/-- Go's `strings.Join`. -/
def stringsJoin : List String → String → String
  | [], _ => ""
  | [s], _ => s
  | s :: t :: rest, sep => s ++ sep ++ stringsJoin (t :: rest) sep

/-- Function `intArrayToString` (lines 210-216); `fmt.Sprint` of an `int` is
its decimal rendering. -/
def intArrayToString (arr : List Int) : String :=
  let strArr := arr.map (fun num => toString num)
  "[" ++ stringsJoin strArr "," ++ "[]"

/-- The organizer ids of line 163. -/
def organizerIds : List Int := [3125215, 5478152]

/-- The service selection of lines 166-169. -/
def serviceFor (eventType : String) : String :=
  if eventType == "past" then "/v4/events/past" else "/v4/search"

/-- The part of the format string of line 172 that precedes the first `%s`. -/
def bodyBeforeService : String :=
  "\x7b\n        \"service\": \""

/-- The part of the format string between the two `%s` verbs. -/
def bodyBeforeOrganizers : String :=
  "\",\n        \"params\": \x7b\n            \"only\": \"name,images,location,start_date_formats,end_date_formats,url\",\n            \"organizer_id\": "

/-- The part of the format string after the second `%s`. -/
def bodyAfterOrganizers : String :=
  ",\n            \"sort\": \"date\",\n            \"order_by\": \"desc\",\n            \"limit\": \"6\",\n            \"page\": 1\n        \x7d,\n        \"ignoreLocation\": true\n    \x7d"

/-- The request body assembled on lines 172-183: the raw format string with
its two `%s` verbs replaced by the service and the organizer-id rendering. -/
def requestBody (eventType : String) : String :=
  bodyBeforeService ++ serviceFor eventType ++ bodyBeforeOrganizers
    ++ intArrayToString organizerIds ++ bodyAfterOrganizers

/-! ## Event fetcher (lines 161-208) -/

/-- One observable action of the program, in the order performed. -/
inductive Effect (Err : Type) where
  /-- Call `http.Post(url, contentType, strings.NewReader(body))`. -/
  | httpPost (url contentType body : String)
  /-- Call `io.ReadAll(resp.Body)`. -/
  | readAll
  /-- Call `json.NewDecoder(bytes.NewReader(body)).Decode(&symplaResp)`. -/
  | jsonDecode
  /-- The deferred `resp.Body.Close()`. -/
  | bodyClose
  /-- Call `fmt.Println(text, err)`. -/
  | println (text : String) (err : Err)
  /-- Call `bot.SendMessage(tu.Message(tu.ID(chatID), text))`. -/
  | sendMessage (chatID : Int) (text : String)
  deriving DecidableEq, Repr

/-- The collaborators of `fetchSymplaEvents`.  `post` and `readAll` return
the value or the error of `http.Post` and `io.ReadAll`; `decode` returns the
content of `symplaResp` after `Decode(&symplaResp)` ran on the zero value,
together with the error `Decode` returned (the decoder may have filled part of
`symplaResp` before failing). -/
structure Env (Resp Bytes Err L : Type) where
  post : String → String → String → Except Err Resp
  readAll : Resp → Except Err Bytes
  decode : Bytes → SymplaResponse L × Option Err

/-- The URL literal of line 186. -/
def searchURL : String := "https://www.sympla.com.br/api/v1/search"

/-- Function `fetchSymplaEvents` (lines 161-208): the returned pair
`(events, err)` and the effects performed. -/
def fetchSymplaEvents {Resp Bytes Err L : Type} (env : Env Resp Bytes Err L)
    (eventType : String) : (Slice (Event L) × Option Err) × List (Effect Err) :=
  let body := requestBody eventType
  let call : Effect Err := .httpPost searchURL "application/json" body
  match env.post searchURL "application/json" body with
  | .error err => ((none, some err), [call])
  | .ok resp =>
    match env.readAll resp with
    | .error err => ((none, some err), [call, .readAll, .bodyClose])
    | .ok bytes =>
      match env.decode bytes with
      | (_, some err) => ((none, some err), [call, .readAll, .jsonDecode, .bodyClose])
      | (symplaResp, none) =>
        ((symplaResp.Data, none), [call, .readAll, .jsonDecode, .bodyClose])

/-! ## Command handlers (lines 130-159) -/

/-- The chat of a message, `update.Message.Chat`. -/
structure Chat where
  ID : Int
  deriving DecidableEq, Repr

/-- The message of an update. -/
structure Message where
  Chat : Chat
  deriving DecidableEq, Repr

/-- An update that reached a handler: its predicate `th.CommandEqual` only
accepts updates that carry a message. -/
structure Update where
  Message : Message
  deriving DecidableEq, Repr

/-- The handler registered by `registerAvailableEventCommand` (lines 131-143).
The closure binds the update it receives to the parameter `udpate` (line 131)
and never reads it; line 140 reads `update`, a name the source declares
nowhere in this scope, so what it denotes is the parameter `update`. -/
def registerAvailableEventCommand.handler {Resp Bytes Err : Type}
    (City : String → String) (update : Update) (env : Env Resp Bytes Err String)
    (udpate : Update) : List (Effect Err) :=
  match fetchSymplaEvents env "future" with
  | ((_, some err), performed) => performed ++ [.println "Erro ao buscar eventos: " err]
  | ((events, none), performed) =>
    let message := formatEventsMessage City events
    performed ++ [.sendMessage update.Message.Chat.ID message]

/-- The handler registered by `registerClosedEventCommand` (lines 147-158);
`update` is the update the closure receives. -/
def registerClosedEventCommand.handler {Resp Bytes Err : Type}
    (City : String → String) (env : Env Resp Bytes Err String) (update : Update) :
    List (Effect Err) :=
  match fetchSymplaEvents env "past" with
  | ((_, some err), performed) => performed ++ [.println "Erro ao buscar eventos:" err]
  | ((events, none), performed) =>
    let message := formatEventsMessage City events
    performed ++ [.sendMessage update.Message.Chat.ID message]

/-- The messages sent among a list of effects, as (chat, text) pairs. -/
def sentMessages {Err : Type} : List (Effect Err) → List (Int × String)
  | [] => []
  | .sendMessage chatID text :: rest => (chatID, text) :: sentMessages rest
  | _ :: rest => sentMessages rest

/-- The number of outbound HTTP POSTs among a list of effects. -/
def postCount {Err : Type} : List (Effect Err) → Nat
  | [] => 0
  | .httpPost _ _ _ :: rest => postCount rest + 1
  | _ :: rest => postCount rest

/-! ## Decoding a response body into the declared structs (lines 26-73)

`encoding/json` is directed by the declared field types and `json` tags.  The
model follows its documented behaviour: a JSON `null` leaves the target as it
is (a slice becomes nil), a key is matched to a field by its tag, ignoring
case, unknown keys are skipped, and a value of the wrong kind leaves the field
as it is, records an `UnmarshalTypeError` (the first one is the error `Decode`
returns) and lets decoding continue with the next value. -/

/-- A JSON value: the value the text of a response body denotes. -/
inductive JSON where
  | null
  | bool (b : Bool)
  | number (literal : String)
  | string (s : String)
  | array (items : List JSON)
  | object (members : List (String × JSON))

/-- The error of `encoding/json` for a value that does not fit the Go type:
the kind of the JSON value and the name of the Go type. -/
structure UnmarshalTypeError where
  Value : String
  GoType : String
  deriving DecidableEq, Repr

/-- The description of a JSON value in an `UnmarshalTypeError`. -/
def JSON.kind : JSON → String
  | .null => "null"
  | .bool _ => "bool"
  | .number _ => "number"
  | .string _ => "string"
  | .array _ => "array"
  | .object _ => "object"

/-- The decoder keeps the first error it meets. -/
def saveError (saved : Option UnmarshalTypeError) (err : UnmarshalTypeError) :
    Option UnmarshalTypeError :=
  match saved with
  | none => some err
  | some first => some first

/-- Case folding of one character of a key: ASCII letters to upper case, and
the two non-ASCII characters whose fold is an ASCII letter. -/
def foldChar (c : Char) : Char :=
  if c = 'ſ' then 'S' else if c = 'K' then 'K' else c.toUpper

/-- A key of a JSON object selects the field with tag `tag`. -/
def fieldMatches (key tag : String) : Bool :=
  key.data.map foldChar == tag.data.map foldChar

/-- Decoding into a field of Go type `string`. -/
def decodeString (saved : Option UnmarshalTypeError) (current : String) (value : JSON) :
    String × Option UnmarshalTypeError :=
  match value with
  | .null => (current, saved)
  | .string s => (s, saved)
  | other => (current, saveError saved ⟨other.kind, "string"⟩)

/-- Decoding into a field of type `StartDateFormats`. -/
def decodeStartDateFormats (saved : Option UnmarshalTypeError)
    (current : StartDateFormats) (value : JSON) :
    StartDateFormats × Option UnmarshalTypeError :=
  match value with
  | .null => (current, saved)
  | .object members =>
    members.foldl
      (fun state member =>
        if fieldMatches member.1 "pt" then
          let r := decodeString state.2 state.1.Pt member.2
          ({ state.1 with Pt := r.1 }, r.2)
        else if fieldMatches member.1 "en" then
          let r := decodeString state.2 state.1.En member.2
          ({ state.1 with En := r.1 }, r.2)
        else if fieldMatches member.1 "es" then
          let r := decodeString state.2 state.1.Es member.2
          ({ state.1 with Es := r.1 }, r.2)
        else state)
      (current, saved)
  | other => (current, saveError saved ⟨other.kind, "main.StartDateFormats"⟩)

/-- Decoding into a field of type `EndDateFormats`. -/
def decodeEndDateFormats (saved : Option UnmarshalTypeError)
    (current : EndDateFormats) (value : JSON) :
    EndDateFormats × Option UnmarshalTypeError :=
  match value with
  | .null => (current, saved)
  | .object members =>
    members.foldl
      (fun state member =>
        if fieldMatches member.1 "pt" then
          let r := decodeString state.2 state.1.Pt member.2
          ({ state.1 with Pt := r.1 }, r.2)
        else if fieldMatches member.1 "en" then
          let r := decodeString state.2 state.1.En member.2
          ({ state.1 with En := r.1 }, r.2)
        else if fieldMatches member.1 "es" then
          let r := decodeString state.2 state.1.Es member.2
          ({ state.1 with Es := r.1 }, r.2)
        else state)
      (current, saved)
  | other => (current, saveError saved ⟨other.kind, "main.EndDateFormats"⟩)

/-- Decoding into a value of type `Event`, as declared: `images` and
`location` are `string` fields. -/
def decodeEvent (saved : Option UnmarshalTypeError) (current : Event String)
    (value : JSON) : Event String × Option UnmarshalTypeError :=
  match value with
  | .null => (current, saved)
  | .object members =>
    members.foldl
      (fun state member =>
        if fieldMatches member.1 "name" then
          let r := decodeString state.2 state.1.Name member.2
          ({ state.1 with Name := r.1 }, r.2)
        else if fieldMatches member.1 "images" then
          let r := decodeString state.2 state.1.Images member.2
          ({ state.1 with Images := r.1 }, r.2)
        else if fieldMatches member.1 "location" then
          let r := decodeString state.2 state.1.Location member.2
          ({ state.1 with Location := r.1 }, r.2)
        else if fieldMatches member.1 "start_date_formats" then
          let r := decodeStartDateFormats state.2 state.1.StartDateFormats member.2
          ({ state.1 with StartDateFormats := r.1 }, r.2)
        else if fieldMatches member.1 "end_date_formats" then
          let r := decodeEndDateFormats state.2 state.1.EndDateFormats member.2
          ({ state.1 with EndDateFormats := r.1 }, r.2)
        else if fieldMatches member.1 "url" then
          let r := decodeString state.2 state.1.URL member.2
          ({ state.1 with URL := r.1 }, r.2)
        else state)
      (current, saved)
  | other => (current, saveError saved ⟨other.kind, "main.Event"⟩)

/-- The zero value of `Event`, as declared. -/
def zeroEvent : Event String :=
  { Name := "", Images := "", Location := ""
    StartDateFormats := { Pt := "", En := "", Es := "" }
    EndDateFormats := { Pt := "", En := "", Es := "" }
    URL := "" }

/-- Decoding into the field `Data` of type `[]Event`.  `current` is the slice
and `backing` the elements its underlying array holds from index zero on (the
slice is a prefix of them; every later element is a zero `Event`).  A `null`
sets the slice to nil.  An array decodes its item number `i` on top of the
element the underlying array holds at index `i` and gives the slice the length
of the array; an empty array gives a fresh empty slice. -/
def decodeEvents (saved : Option UnmarshalTypeError) (current : Slice (Event String))
    (backing : List (Event String)) (value : JSON) :
    (Slice (Event String) × List (Event String)) × Option UnmarshalTypeError :=
  match value with
  | .null => ((none, []), saved)
  | .array [] => ((some [], []), saved)
  | .array items =>
    let r := items.foldl
      (fun state item =>
        let d := decodeEvent state.2 (backing.getD state.1.length zeroEvent) item
        (state.1 ++ [d.1], d.2))
      (([] : List (Event String)), saved)
    ((some r.1, r.1 ++ backing.drop r.1.length), r.2)
  | other => ((current, backing), saveError saved ⟨other.kind, "[]main.Event"⟩)

/-- The call `Decode(&symplaResp)` on the zero `SymplaResponse` for a body
denoting `value`: the content of `symplaResp` afterwards, and the error. -/
def decodeSymplaResponse (value : JSON) :
    SymplaResponse String × Option UnmarshalTypeError :=
  match value with
  | .null => (⟨none⟩, none)
  | .object members =>
    let r := members.foldl
      (fun state member =>
        if fieldMatches member.1 "data" then
          let d := decodeEvents state.2 state.1.1 state.1.2 member.2
          (d.1, d.2)
        else state)
      (((none : Slice (Event String)), ([] : List (Event String))),
        (none : Option UnmarshalTypeError))
    (⟨r.1.1⟩, r.2)
  | other => (⟨none⟩, some ⟨other.kind, "main.SymplaResponse"⟩)

/-- The value denoted by the body `{"data":[{"name":"Go Meetup","location":
{"city":"São Paulo"},"start_date_formats":{"pt":"10/10/2024"},
"url":"http://example.com/1"}]}`. -/
def scenarioBody : JSON :=
  .object [("data", .array [.object
    [("name", .string "Go Meetup"),
     ("location", .object [("city", .string "São Paulo")]),
     ("start_date_formats", .object [("pt", .string "10/10/2024")]),
     ("url", .string "http://example.com/1")]])]

/-- An upstream that answers every POST with `scenarioBody`, decoded into the
structs as declared. -/
def scenarioEnv : Env Unit JSON UnmarshalTypeError String :=
  { post := fun _ _ _ => .ok ()
    readAll := fun _ => .ok scenarioBody
    decode := decodeSymplaResponse }

/-! ## Specification vocabulary -/

/-- Text `s` contains text `t` as a contiguous piece. -/
def Contains (s t : String) : Prop := t.data <:+: s.data

/-- The line of 40 hyphens the divider starts with. -/
def hyphenLine : String := "----------------------------------------"

/-- An event used to instantiate the statements below. -/
def goMeetup : Event String :=
  { Name := "Go Meetup"
    Images := ""
    Location := "São Paulo"
    StartDateFormats := { Pt := "10/10/2024", En := "", Es := "" }
    EndDateFormats := { Pt := "", En := "", Es := "" }
    URL := "http://example.com/1" }

/-- A second event, dated before `goMeetup`. -/
def rustNight : Event String :=
  { goMeetup with
    Name := "Rust Night"
    StartDateFormats := { Pt := "01/02/2023", En := "", Es := "" }
    URL := "http://example.com/2" }

/-- The POST that `fetchSymplaEvents` issues for a mode. -/
def postCall (Err : Type) (eventType : String) : Effect Err :=
  .httpPost searchURL "application/json" (requestBody eventType)

/-- Everything of the request body that follows the service. -/
def bodyAfterService : String :=
  bodyBeforeOrganizers ++ intArrayToString organizerIds ++ bodyAfterOrganizers

/-- An upstream that refuses the connection. -/
def refusingEnv : Env Unit String String String :=
  { post := fun _ _ _ => .error "connection refused"
    readAll := fun _ => .ok ""
    decode := fun _ => (⟨none⟩, none) }

/-- An upstream whose response body cannot be read to its end. -/
def truncatingEnv : Env Unit String String String :=
  { post := fun _ _ _ => .ok ()
    readAll := fun _ => .error "unexpected EOF"
    decode := fun _ => (⟨none⟩, none) }

/-- An upstream whose body the decoder rejects after it has filled one event. -/
def malformedEnv : Env Unit String String String :=
  { post := fun _ _ _ => .ok ()
    readAll := fun _ => .ok "\x7b\"data\":[\x7b\"name\":\"Go Meetup\"\x7d,"
    decode := fun _ => (⟨some [goMeetup]⟩, some "unexpected EOF") }

/-- An upstream whose body decodes to two events. -/
def workingEnv : Env Unit String String String :=
  { post := fun _ _ _ => .ok ()
    readAll := fun _ => .ok "body"
    decode := fun _ => (⟨some [goMeetup, rustNight]⟩, none) }

/-- An update from chat 42. -/
def updateFromChat42 : Update := { Message := { Chat := { ID := 42 } } }

/-- An update from chat 7. -/
def updateFromChat7 : Update := { Message := { Chat := { ID := 7 } } }

theorem newline_mem_eventBlock (City : String → String) (event : Event String) :
    '\n' ∈ (eventBlock City event).data := by
  simp [eventBlock, String.data_append]

theorem not_contains_of_mem (s t : String) (c : Char) (hc : c ∈ t.data)
    (hs : c ∉ s.data) : ¬ Contains s t := by
  intro h
  exact hs (h.subset hc)

/-! ## Claims about the formatter -/

/-- C2: for the nil list and for the empty list the message is exactly the
header immediately followed by the unavailability notice; it contains no line
of 40 hyphens (hence no divider) and no event block.  The path reads no event,
so this holds whatever the selector of line 225 denotes. -/
theorem formatEventsMessage_unavailable (City : String → String) :
    formatEventsMessage City none
        = "#BOT DEVS OF LATIN"
            ++ "Ops... Looks Like the service is unavailable at the moment :("
      ∧ formatEventsMessage City (some []) = formatEventsMessage City none
      ∧ ¬ Contains (formatEventsMessage City none) hyphenLine
      ∧ ¬ Contains (formatEventsMessage City none) divider
      ∧ ∀ (AnyCity : String → String) (event : Event String),
          ¬ Contains (formatEventsMessage City none) (eventBlock AnyCity event) := by
  have hnil : formatEventsMessage City none = header ++ unavailableNotice := rfl
  refine ⟨rfl, rfl, ?_, ?_, ?_⟩
  · rw [hnil]
    exact not_contains_of_mem _ _ '-' (by decide) (by decide)
  · rw [hnil]
    exact not_contains_of_mem _ _ '-' (by decide) (by decide)
  · intro AnyCity event
    rw [hnil]
    exact not_contains_of_mem _ _ '\n' (newline_mem_eventBlock AnyCity event) (by decide)

theorem sentMessages_append {Err : Type} (xs ys : List (Effect Err)) :
    sentMessages (xs ++ ys) = sentMessages xs ++ sentMessages ys := by
  induction xs with
  | nil => rfl
  | cons x rest ih => cases x <;> simp [sentMessages, ih]

theorem fetchSymplaEvents_cases {Resp Bytes Err L : Type} (env : Env Resp Bytes Err L)
    (eventType : String) :
    (∃ err, env.post searchURL "application/json" (requestBody eventType) = .error err
        ∧ fetchSymplaEvents env eventType = ((none, some err), [postCall Err eventType]))
      ∨ (∃ resp err, env.post searchURL "application/json" (requestBody eventType) = .ok resp
        ∧ env.readAll resp = .error err
        ∧ fetchSymplaEvents env eventType
          = ((none, some err), [postCall Err eventType, .readAll, .bodyClose]))
      ∨ (∃ resp bytes filled err,
          env.post searchURL "application/json" (requestBody eventType) = .ok resp
        ∧ env.readAll resp = .ok bytes
        ∧ env.decode bytes = (filled, some err)
        ∧ fetchSymplaEvents env eventType
          = ((none, some err), [postCall Err eventType, .readAll, .jsonDecode, .bodyClose]))
      ∨ (∃ resp bytes symplaResp,
          env.post searchURL "application/json" (requestBody eventType) = .ok resp
        ∧ env.readAll resp = .ok bytes
        ∧ env.decode bytes = (symplaResp, none)
        ∧ fetchSymplaEvents env eventType
          = ((symplaResp.Data, none),
              [postCall Err eventType, .readAll, .jsonDecode, .bodyClose])) := by
  unfold fetchSymplaEvents postCall
  cases hp : env.post searchURL "application/json" (requestBody eventType) with
  | error err => exact Or.inl ⟨err, rfl, by simp [hp]⟩
  | ok resp =>
    cases hr : env.readAll resp with
    | error err => exact Or.inr (Or.inl ⟨resp, err, rfl, hr, by simp [hp, hr]⟩)
    | ok bytes =>
      rcases hd : env.decode bytes with ⟨symplaResp, _ | err⟩
      · exact Or.inr (Or.inr (Or.inr ⟨resp, bytes, symplaResp, rfl, hr, hd,
          by simp [hp, hr, hd]⟩))
      · exact Or.inr (Or.inr (Or.inl ⟨resp, bytes, symplaResp, err, rfl, hr, hd,
          by simp [hp, hr, hd]⟩))

theorem fetchSymplaEvents_sends_nothing {Resp Bytes Err L : Type}
    (env : Env Resp Bytes Err L) (eventType : String) :
    sentMessages (fetchSymplaEvents env eventType).2 = [] := by
  rcases fetchSymplaEvents_cases env eventType with
    ⟨_, _, h⟩ | ⟨_, _, _, _, h⟩ | ⟨_, _, _, _, _, _, _, h⟩ | ⟨_, _, _, _, _, _, h⟩ <;>
  simp [h, postCall, sentMessages]

theorem append_middle_cancel (a x y c : String) (h : a ++ x ++ c = a ++ y ++ c) :
    x = y := by
  have hd := congrArg String.data h
  simp only [String.data_append, List.append_assoc] at hd
  exact String.ext (List.append_cancel_right (List.append_cancel_left hd))

theorem requestBody_eq (eventType : String) :
    requestBody eventType
      = bodyBeforeService ++ serviceFor eventType ++ bodyAfterService := by
  simp [requestBody, bodyAfterService, String.append_assoc]

theorem fetchSymplaEvents_first_effect {Resp Bytes Err L : Type}
    (env : Env Resp Bytes Err L) (eventType : String) :
    (fetchSymplaEvents env eventType).2.head? = some (postCall Err eventType) := by
  rcases fetchSymplaEvents_cases env eventType with
    ⟨_, _, h⟩ | ⟨_, _, _, _, h⟩ | ⟨_, _, _, _, _, _, _, h⟩ | ⟨_, _, _, _, _, _, h⟩ <;>
  simp [h]

/-! ## Claims about the request -/

/-- C3, evaluated on the code: for every list the rendering is "[", the
decimal renderings joined by ",", and then the two characters "[]" instead of
a closing "]"; for the fixed organizer ids it is "[3125215,5478152[]", not the
JSON array "[3125215,5478152]". -/
theorem intArrayToString_closing_token :
    (∀ arr : List Int,
        intArrayToString arr
          = "[" ++ stringsJoin (arr.map (fun num => toString num)) "," ++ "[]")
      ∧ intArrayToString [3125215, 5478152] = "[3125215,5478152[]"
      ∧ intArrayToString organizerIds ≠ "[3125215,5478152]" := by
  refine ⟨fun _ => rfl, by decide, by decide⟩

/-- C4: the POST issued for mode "future" carries a body whose "service" is
"/v4/search", the one for mode "past" a body whose "service" is
"/v4/events/past", and the two bodies are the same text before and after the
service: the same projection, organizer-id rendering, sort, order_by, limit,
page and ignoreLocation. -/
theorem requestBody_future_past {Resp Bytes Err L : Type} (env : Env Resp Bytes Err L) :
    (fetchSymplaEvents env "future").2.head?
        = some (.httpPost searchURL "application/json" (requestBody "future"))
      ∧ (fetchSymplaEvents env "past").2.head?
        = some (.httpPost searchURL "application/json" (requestBody "past"))
      ∧ requestBody "future"
        = "\x7b\n        \"service\": \"" ++ "/v4/search" ++ bodyAfterService
      ∧ requestBody "past"
        = "\x7b\n        \"service\": \"" ++ "/v4/events/past" ++ bodyAfterService
      ∧ bodyAfterService
        = "\",\n        \"params\": \x7b\n"
          ++ "            \"only\": \"name,images,location,start_date_formats,end_date_formats,url\",\n"
          ++ "            \"organizer_id\": " ++ intArrayToString [3125215, 5478152] ++ ",\n"
          ++ "            \"sort\": \"date\",\n"
          ++ "            \"order_by\": \"desc\",\n"
          ++ "            \"limit\": \"6\",\n"
          ++ "            \"page\": 1\n"
          ++ "        \x7d,\n"
          ++ "        \"ignoreLocation\": true\n"
          ++ "    \x7d" := by
  refine ⟨fetchSymplaEvents_first_effect env "future",
    fetchSymplaEvents_first_effect env "past", ?_, ?_, ?_⟩
  · exact requestBody_eq "future"
  · exact requestBody_eq "past"
  · decide

/-- C10: the mode is not validated.  For every string the POST carries the
body with the past-events service when the string is exactly "past" and the
body with the search service otherwise; so the past-events service is used if
and only if the argument equals "past", and "", "Past", "future" and an
unrecognised value all select "/v4/search". -/
theorem requestBody_service_iff {Resp Bytes Err L : Type} (env : Env Resp Bytes Err L)
    (eventType : String) :
    (fetchSymplaEvents env eventType).2.head?
        = some (.httpPost searchURL "application/json" (requestBody eventType))
      ∧ requestBody eventType
        = bodyBeforeService
            ++ (if eventType = "past" then "/v4/events/past" else "/v4/search")
            ++ bodyAfterService
      ∧ (requestBody eventType
            = bodyBeforeService ++ "/v4/events/past" ++ bodyAfterService
          ↔ eventType = "past")
      ∧ (requestBody eventType
            = bodyBeforeService ++ "/v4/search" ++ bodyAfterService
          ↔ eventType ≠ "past")
      ∧ serviceFor "" = "/v4/search"
      ∧ serviceFor "Past" = "/v4/search"
      ∧ serviceFor "future" = "/v4/search"
      ∧ serviceFor "upcoming" = "/v4/search"
      ∧ serviceFor "past" = "/v4/events/past" := by
  have hbody : requestBody eventType
      = bodyBeforeService
          ++ (if eventType = "past" then "/v4/events/past" else "/v4/search")
          ++ bodyAfterService := by
    rw [requestBody_eq]
    simp [serviceFor]
  refine ⟨fetchSymplaEvents_first_effect env eventType, hbody, ?_, ?_,
    by decide, by decide, by decide, by decide, by decide⟩
  · rw [hbody]
    by_cases h : eventType = "past"
    · simp [h]
    · simp only [h, if_false, iff_false]
      intro heq
      exact absurd (append_middle_cancel _ _ _ _ heq) (by decide)
  · rw [hbody]
    by_cases h : eventType = "past"
    · simp only [h, if_true, ne_eq, not_true_eq_false, iff_false]
      intro heq
      exact absurd (append_middle_cancel _ _ _ _ heq) (by decide)
    · simp [h]

/-! ## Claims about the fetcher and the handlers -/

/-- C5: whatever the mode, when the decoder rejects the response body the
fetcher returns that error with the nil list, also when the decoder had
already filled part of the response. -/
theorem fetchSymplaEvents_decode_error {Resp Bytes Err L : Type}
    (env : Env Resp Bytes Err L) (eventType : String) (resp : Resp) (bytes : Bytes)
    (filled : SymplaResponse L) (err : Err)
    (hpost : env.post searchURL "application/json" (requestBody eventType) = .ok resp)
    (hread : env.readAll resp = .ok bytes)
    (hdecode : env.decode bytes = (filled, some err)) :
    (fetchSymplaEvents env eventType).1 = (none, some err) := by
  simp [fetchSymplaEvents, hpost, hread, hdecode]

/-- Instance of C5: the decoder fails after filling one event, the fetcher
returns the nil list. -/
theorem fetchSymplaEvents_decode_error_witness :
    (malformedEnv.decode "\x7b\"data\":[\x7b\"name\":\"Go Meetup\"\x7d,").1.Data
        = some [goMeetup]
      ∧ (fetchSymplaEvents malformedEnv "past").1 = (none, some "unexpected EOF") :=
  ⟨rfl, fetchSymplaEvents_decode_error malformedEnv "past" ()
    "\x7b\"data\":[\x7b\"name\":\"Go Meetup\"\x7d," ⟨some [goMeetup]⟩ "unexpected EOF"
    rfl rfl rfl⟩

/-- C6, evaluated on the code: decoding the scenario body into the structs as
declared fills one event but reports an `UnmarshalTypeError`, the object under
"location" does not fit the `string` field; the fetcher therefore returns the
nil list and that error. -/
theorem scenario_decode_fails :
    (decodeSymplaResponse scenarioBody).2 = some ⟨"object", "string"⟩
      ∧ ((decodeSymplaResponse scenarioBody).1.Data.map List.length) = some 1
      ∧ (fetchSymplaEvents scenarioEnv "future").1 = (none, some ⟨"object", "string"⟩) := by
  refine ⟨by decide, by decide, by decide⟩

/-- C7: the fetcher returns an error exactly when the POST, the read or the
decoding fails; it then returns the failing step's error with the nil list and
performs no later step (only the deferred close once a response exists); when
the three steps succeed it returns the decoded data with a nil error; every
call issues exactly one POST. -/
theorem fetchSymplaEvents_steps {Resp Bytes Err L : Type} (env : Env Resp Bytes Err L)
    (eventType : String) :
    (∀ err, env.post searchURL "application/json" (requestBody eventType) = .error err →
        fetchSymplaEvents env eventType = ((none, some err), [postCall Err eventType]))
      ∧ (∀ resp err,
          env.post searchURL "application/json" (requestBody eventType) = .ok resp →
          env.readAll resp = .error err →
          fetchSymplaEvents env eventType
            = ((none, some err), [postCall Err eventType, .readAll, .bodyClose]))
      ∧ (∀ resp bytes filled err,
          env.post searchURL "application/json" (requestBody eventType) = .ok resp →
          env.readAll resp = .ok bytes →
          env.decode bytes = (filled, some err) →
          fetchSymplaEvents env eventType
            = ((none, some err),
                [postCall Err eventType, .readAll, .jsonDecode, .bodyClose]))
      ∧ (∀ resp bytes symplaResp,
          env.post searchURL "application/json" (requestBody eventType) = .ok resp →
          env.readAll resp = .ok bytes →
          env.decode bytes = (symplaResp, none) →
          fetchSymplaEvents env eventType
            = ((symplaResp.Data, none),
                [postCall Err eventType, .readAll, .jsonDecode, .bodyClose]))
      ∧ ((fetchSymplaEvents env eventType).1.2 = none
          ↔ ∃ resp bytes symplaResp,
              env.post searchURL "application/json" (requestBody eventType) = .ok resp
                ∧ env.readAll resp = .ok bytes
                ∧ env.decode bytes = (symplaResp, none))
      ∧ postCount (fetchSymplaEvents env eventType).2 = 1 := by
  refine ⟨?_, ?_, ?_, ?_, ?_, ?_⟩
  · intro err hp
    simp [fetchSymplaEvents, postCall, hp]
  · intro resp err hp hr
    simp [fetchSymplaEvents, postCall, hp, hr]
  · intro resp bytes filled err hp hr hd
    simp [fetchSymplaEvents, postCall, hp, hr, hd]
  · intro resp bytes symplaResp hp hr hd
    simp [fetchSymplaEvents, postCall, hp, hr, hd]
  · rcases fetchSymplaEvents_cases env eventType with
      ⟨err, hp, h⟩ | ⟨resp, err, hp, hr, h⟩ | ⟨resp, bytes, filled, err, hp, hr, hd, h⟩
        | ⟨resp, bytes, symplaResp, hp, hr, hd, h⟩
    · simp [h, hp]
    · simp only [h, hp]
      constructor
      · intro hnone
        cases hnone
      · rintro ⟨resp2, bytes2, sr2, hp2, hr2, _⟩
        cases hp2
        rw [hr] at hr2
        cases hr2
    · simp only [h, hp]
      constructor
      · intro hnone
        cases hnone
      · rintro ⟨resp2, bytes2, sr2, hp2, hr2, hd2⟩
        cases hp2
        rw [hr] at hr2
        cases hr2
        rw [hd] at hd2
        cases hd2
    · rw [h]
      exact ⟨fun _ => ⟨resp, bytes, symplaResp, hp, hr, hd⟩, fun _ => rfl⟩
  · rcases fetchSymplaEvents_cases env eventType with
      ⟨_, _, h⟩ | ⟨_, _, _, _, h⟩ | ⟨_, _, _, _, _, _, _, h⟩ | ⟨_, _, _, _, _, _, h⟩ <;>
    simp [h, postCall, postCount]

/-- Instances of C7: a refused connection, an unreadable body, a rejected body
and a successful fetch. -/
theorem fetchSymplaEvents_steps_witness :
    fetchSymplaEvents refusingEnv "future"
        = ((none, some "connection refused"), [postCall String "future"])
      ∧ fetchSymplaEvents truncatingEnv "future"
        = ((none, some "unexpected EOF"), [postCall String "future", .readAll, .bodyClose])
      ∧ fetchSymplaEvents malformedEnv "past"
        = ((none, some "unexpected EOF"),
            [postCall String "past", .readAll, .jsonDecode, .bodyClose])
      ∧ fetchSymplaEvents workingEnv "past"
        = ((some [goMeetup, rustNight], none),
            [postCall String "past", .readAll, .jsonDecode, .bodyClose])
      ∧ postCount (fetchSymplaEvents workingEnv "past").2 = 1 :=
  ⟨(fetchSymplaEvents_steps refusingEnv "future").1 "connection refused" rfl,
    (fetchSymplaEvents_steps truncatingEnv "future").2.1 () "unexpected EOF" rfl rfl,
    (fetchSymplaEvents_steps malformedEnv "past").2.2.1 ()
      "\x7b\"data\":[\x7b\"name\":\"Go Meetup\"\x7d," ⟨some [goMeetup]⟩ "unexpected EOF"
      rfl rfl rfl,
    (fetchSymplaEvents_steps workingEnv "past").2.2.2.1 () "body"
      ⟨some [goMeetup, rustNight]⟩ rfl rfl rfl,
    (fetchSymplaEvents_steps workingEnv "past").2.2.2.2.2⟩

/-- C8, on the code as declared, for every reading `City` of the selector of
line 225 and every denotation `update` of the name read on line 140.  The
closed handler sends nothing when its fetch (mode "past") returns an error and
otherwise exactly one message, to the chat of the update it received, whose
text is the formatted list that was fetched.  The available handler (mode
"future") also sends nothing on an error and one message with the formatted
list otherwise, but addresses it to the chat of `update`, whatever update
`udpate` it received: received from chat 42 it sends to chat 7 when `update`
denotes an update from chat 7. -/
theorem handlers_reply {Resp Bytes Err : Type} (City : String → String)
    (env : Env Resp Bytes Err String) (update udpate : Update) :
    sentMessages (registerClosedEventCommand.handler City env update)
        = (match (fetchSymplaEvents env "past").1 with
          | (_, some _) => []
          | (events, none) =>
            [(update.Message.Chat.ID, formatEventsMessage City events)])
      ∧ sentMessages (registerAvailableEventCommand.handler City update env udpate)
        = (match (fetchSymplaEvents env "future").1 with
          | (_, some _) => []
          | (events, none) =>
            [(update.Message.Chat.ID, formatEventsMessage City events)])
      ∧ sentMessages
          (registerAvailableEventCommand.handler City updateFromChat7 workingEnv
            updateFromChat42)
        = [(7, formatEventsMessage City (some [goMeetup, rustNight]))]
      ∧ sentMessages
          (registerClosedEventCommand.handler City workingEnv updateFromChat42)
        = [(42, formatEventsMessage City (some [goMeetup, rustNight]))]
      ∧ sentMessages
          (registerAvailableEventCommand.handler City update refusingEnv udpate)
        = ([] : List (Int × String)) := by
  refine ⟨?_, ?_, rfl, rfl, rfl⟩
  · have hnone := fetchSymplaEvents_sends_nothing env "past"
    unfold registerClosedEventCommand.handler
    rcases hf : fetchSymplaEvents env "past" with ⟨⟨events, _ | err⟩, performed⟩ <;>
    · rw [hf] at hnone
      simp [sentMessages_append, sentMessages] at hnone ⊢
      exact hnone
  · have hnone := fetchSymplaEvents_sends_nothing env "future"
    unfold registerAvailableEventCommand.handler
    rcases hf : fetchSymplaEvents env "future" with ⟨⟨events, _ | err⟩, performed⟩ <;>
    · rw [hf] at hnone
      simp [sentMessages_append, sentMessages] at hnone ⊢
      exact hnone

end TelegramBot
